import Mathlib

/-!
Verification of the BookLibrary REST API's core logic: a shallow embedding of
the book aggregate (availability/copy tracking, borrow ledger, review
aggregation) from `src/models/bookModel.js`, of the controller-level guards and
query construction from `src/controllers/bookController.js`, of the query
validation defaults from `src/middlewares/validationMiddleware.js`, and of the
recommendation endpoints (`getSimilarBooks`).

Conventions of the embedding:
* JavaScript numbers holding copy counts are modelled as `Int` (the mongoose
  schema performs `-= 1` / `+= 1` on them); review counts and pagination
  numbers that the code only ever treats as non-negative integers are `Nat`.
* `averageRating` is always produced by the pre-save hook as
  `Math.round(mean * 10) / 10`, i.e. an integer number of tenths; we store that
  integer number of tenths (`averageRating : Int` is ten times the JS value).
  This keeps the model kernel-computable while preserving order and value
  (the JS value is `averageRating / 10`).
* Dates are opaque integer timestamps; `Date.now()` is passed in explicitly.
* A fallible operation (a JS `throw` caught by the caller) is an
  `Except String` mirroring the thrown message.
* The MongoDB collection is a `List Book`; `.find(filter)` is `List.filter`,
  `.sort` is `List.insertionSort` with the corresponding key comparison,
  `.skip/.limit` are `List.drop/List.take`, and aggregation pipelines are
  translated stage by stage.
-/

deriving instance DecidableEq for Except

namespace BookLibrary

/-- `availability.status` enum from `bookModel.js`
(`['Available', 'Borrowed', 'Reserved', 'Maintenance']`). -/
inductive AvailStatus
  | available
  | borrowed
  | reserved
  | maintenance
deriving DecidableEq, Repr

/-- One entry of `availability.borrowedBy` (`{name, email, borrowDate, dueDate}`). -/
structure BorrowEntry where
  name : String
  email : String
  borrowDate : Int
  dueDate : Int
deriving DecidableEq, Repr

/-- The embedded `availability` sub-document of a book. -/
structure Availability where
  status : AvailStatus
  totalCopies : Int
  availableCopies : Int
  borrowedBy : List BorrowEntry
deriving DecidableEq, Repr

/-- One review (`reviewSchema`): rating 1..5, comment, reviewer name.
`reviewDate` is irrelevant to every claim and elided. -/
structure Review where
  rating : Nat
  comment : String
  reviewerName : String
deriving DecidableEq, Repr

/-- A book document (`bookSchema`). Fields not touched by any verified claim
(isbn, publisher, pages, language, description, coverImage, addedBy) are
elided; `averageRating` is stored in tenths (see the file header). -/
structure Book where
  id : Nat
  title : String
  author : String
  genre : String
  tags : List String
  publicationYear : Option Int
  availability : Availability
  reviews : List Review
  averageRating : Int
  totalReviews : Nat
  createdAt : Int
deriving DecidableEq, Repr

/-- `Math.round((totalRating / count) * 10)` from the pre-save hook, computed
exactly on integers: for `count > 0` this is
`⌊(10·total/count) + 1/2⌋ = ⌊(20·total + count) / (2·count)⌋`, a floor
division of non-negative integers. -/
def jsRound10 (total count : Nat) : Int :=
  Int.fdiv (20 * total + count) (2 * count)

/-- The `bookSchema.pre('save')` hook: recompute `averageRating` (in tenths)
and `totalReviews` from the review list, then clamp `availableCopies` at
`totalCopies`. -/
def presave (b : Book) : Book :=
  let b1 :=
    if 0 < b.reviews.length then
      { b with
        averageRating := jsRound10 ((b.reviews.map Review.rating).sum) b.reviews.length
        totalReviews := b.reviews.length }
    else
      { b with averageRating := 0, totalReviews := 0 }
  if b1.availability.totalCopies < b1.availability.availableCopies then
    { b1 with availability.availableCopies := b1.availability.totalCopies }
  else b1

/-- `bookSchema.methods.addReview`: push the review and save (running the
pre-save hook). -/
def Book.addReview (b : Book) (r : Review) : Book :=
  presave { b with reviews := b.reviews ++ [r] }

/-- The borrower info posted to the borrow endpoint (`{name, email, dueDate?}`). -/
structure Borrower where
  name : String
  email : String
  dueDate : Option Int
deriving DecidableEq, Repr

/-- `bookSchema.methods.borrowBook`: throw if no copies are available,
otherwise append a ledger entry (dueDate defaulting to 14 days from `now`),
decrement `availableCopies`, flip status to Borrowed when it reaches 0, and
save (running the pre-save hook). -/
def Book.borrowBook (b : Book) (info : Borrower) (now : Int) : Except String Book :=
  if b.availability.availableCopies ≤ 0 then
    .error "No copies available for borrowing"
  else
    let entry : BorrowEntry :=
      { name := info.name
        email := info.email
        borrowDate := now
        dueDate := info.dueDate.getD (now + 14 * 24 * 60 * 60 * 1000) }
    let b1 := { b with
      availability.borrowedBy := b.availability.borrowedBy ++ [entry]
      availability.availableCopies := b.availability.availableCopies - 1 }
    let b2 :=
      if b1.availability.availableCopies = 0 then
        { b1 with availability.status := .borrowed }
      else b1
    .ok (presave b2)

/-- JavaScript `Array.prototype.findIndex` (first index satisfying the
predicate), with `none` in place of `-1`. -/
def findIndex (p : α → Bool) : List α → Option Nat
  | [] => none
  | a :: l => if p a then some 0 else (findIndex p l).map (· + 1)

/-- `bookSchema.methods.returnBook`: throw if no ledger entry matches the
email, otherwise splice out the first matching entry, increment
`availableCopies`, flip status to Available when positive, and save (running
the pre-save hook, which clamps `availableCopies` at `totalCopies`). -/
def Book.returnBook (b : Book) (email : String) : Except String Book :=
  match findIndex (fun e => e.email == email) b.availability.borrowedBy with
  | none => .error "No borrow record found for this email"
  | some i =>
    let b1 := { b with
      availability.borrowedBy := b.availability.borrowedBy.eraseIdx i
      availability.availableCopies := b.availability.availableCopies + 1 }
    let b2 :=
      if 0 < b1.availability.availableCopies then
        { b1 with availability.status := .available }
      else b1
    .ok (presave b2)

/-- Failure modes of the borrow controller (`bookController.borrowBook`):
`AppError('No copies available for borrowing')`,
`AppError('You have already borrowed this book')`, or an uncaught model
exception surfaced through `catchAsync`. -/
inductive BorrowCtrlErr
  | noCopiesAvailable
  | alreadyBorrowed
  | internal (msg : String)
deriving DecidableEq, Repr

/-- `bookController.borrowBook` on an existing book: guard on available
copies, guard against a duplicate active ledger entry for the email, then call
the model method. Returns the stored book (unchanged on failure, since the
controller returns before any mutation is saved) and the error, if any. -/
def borrowBookCtrl (b : Book) (info : Borrower) (now : Int) :
    Book × Option BorrowCtrlErr :=
  if b.availability.availableCopies ≤ 0 then
    (b, some .noCopiesAvailable)
  else if b.availability.borrowedBy.any (fun e => e.email == info.email) then
    (b, some .alreadyBorrowed)
  else
    match b.borrowBook info now with
    | .ok b' => (b', none)
    | .error e => (b, some (.internal e))

/-- Failure mode of the return controller (`bookController.returnBook`):
the model method's throw is caught and surfaced as an `AppError` with the
message `'No borrow record found for this email'`. -/
inductive ReturnCtrlErr
  | noBorrowRecord
deriving DecidableEq, Repr

/-- `bookController.returnBook` on an existing book: call the model method,
catching its throw; on failure the stored book is unchanged. -/
def returnBookCtrl (b : Book) (email : String) : Book × Option ReturnCtrlErr :=
  match b.returnBook email with
  | .ok b' => (b', none)
  | .error _ => (b, some .noBorrowRecord)

/-- The query parameters of a list request relevant to sorting and
pagination (`req.query` as consumed by `getAllBooks`); an absent parameter is
`none`. The pure filter parameters (search, genre, author, year range,
minRating, availability) are irrelevant to every verified claim and elided. -/
structure ListQuery where
  sortBy : Option String
  sortOrder : Option String
  page : Option Nat
  limit : Option Nat
deriving DecidableEq, Repr

/-- A list request with no parameters at all (`GET /api/books`). -/
def emptyQuery : ListQuery :=
  { sortBy := none, sortOrder := none, page := none, limit := none }

/-- The `.default(...)` clauses of `searchSchema` in
`validationMiddleware.js`, applied by `validateQuery(schemas.search)` before
`getAllBooks` runs (the middleware replaces `req.query` with the validated
value): `sortBy` defaults to `'title'`, `sortOrder` to `'asc'`, `page` to `1`,
`limit` to `10`. The range checks of the schema are elided (no claim exercises
an out-of-range value). -/
def applySearchDefaults (q : ListQuery) : ListQuery :=
  { sortBy := some (q.sortBy.getD "title")
    sortOrder := some (q.sortOrder.getD "asc")
    page := some (q.page.getD 1)
    limit := some (q.limit.getD 10) }

/-- The sort descriptor built by `getAllBooks` and handed to the store:
`(field, direction)` with `-1` for descending. If `req.query.sortBy` is set it
is used with `sortOrder === 'desc' ? -1 : 1`; otherwise the controller falls
back to `{createdAt: -1}`. -/
def getAllBooksSort (q : ListQuery) : String × Int :=
  match q.sortBy with
  | some f => (f, if q.sortOrder == some "desc" then -1 else 1)
  | none => ("createdAt", -1)

/-- `parseInt(req.query.page) || 1` in `getAllBooks`. -/
def getAllBooksPage (q : ListQuery) : Nat := q.page.getD 1

/-- `parseInt(req.query.limit) || 10` in `getAllBooks`. -/
def getAllBooksLimit (q : ListQuery) : Nat := q.limit.getD 10

/-- The pagination metadata object assembled by `getAllBooks` (and, with the
same formulas, by `getBooksByGenre`). -/
structure Pagination where
  currentPage : Nat
  totalPages : Nat
  totalBooks : Nat
  hasNextPage : Bool
  hasPrevPage : Bool
  limit : Nat
deriving DecidableEq, Repr

/-- `Math.ceil(totalBooks / limit)` for natural numbers (`limit > 0`). -/
def jsCeilDiv (totalBooks limit : Nat) : Nat :=
  (totalBooks + limit - 1) / limit

/-- The pagination metadata computed by the controller:
`totalPages = Math.ceil(totalBooks/limit)`, `hasNextPage = page < totalPages`,
`hasPrevPage = page > 1`. -/
def mkPagination (page limit totalBooks : Nat) : Pagination :=
  { currentPage := page
    totalPages := jsCeilDiv totalBooks limit
    totalBooks := totalBooks
    hasNextPage := decide (page < jsCeilDiv totalBooks limit)
    hasPrevPage := decide (1 < page)
    limit := limit }

/-- `.skip((page - 1) * limit).limit(limit)` on a query result. -/
def pageSlice (page limit : Nat) (l : List α) : List α :=
  (l.drop ((page - 1) * limit)).take limit

/-- Sort key of `getBooksByGenre`: `{averageRating: -1, createdAt: -1}`. -/
def byRatingCreatedDesc (a b : Book) : Prop :=
  b.averageRating < a.averageRating ∨
    (a.averageRating = b.averageRating ∧ b.createdAt ≤ a.createdAt)

instance : DecidableRel byRatingCreatedDesc := fun a b =>
  inferInstanceAs (Decidable (_ ∨ _))

/-- The not-found failure produced via `AppError(..., 404)`. -/
inductive NotFoundErr
  | notFound
deriving DecidableEq, Repr

/-- `bookController.getBooksByGenre`: filter the collection by exact genre,
sort by rating then creation time descending, slice the requested page, and
fail with a 404 `AppError` when the sliced page is empty; otherwise answer
with the page and pagination metadata over the full match count. -/
def getBooksByGenre (db : List Book) (genre : String) (pageQ limitQ : Option Nat) :
    Except NotFoundErr (List Book × Pagination) :=
  let page := pageQ.getD 1
  let limit := limitQ.getD 10
  let matching := db.filter (fun b => b.genre == genre)
  let books := pageSlice page limit (matching.insertionSort byRatingCreatedDesc)
  if books.isEmpty then .error .notFound
  else .ok (books, mkPagination page limit matching.length)

/-- Sort key of `getSimilarBooks` (and other AI-route queries):
`{averageRating: -1}`. -/
def byRatingDesc (a b : Book) : Prop :=
  b.averageRating ≤ a.averageRating

instance : DecidableRel byRatingDesc := fun a b =>
  inferInstanceAs (Decidable (_ ≤ _))

instance : IsTotal Book byRatingDesc :=
  ⟨fun a b => le_total b.averageRating a.averageRating⟩

instance : IsTrans Book byRatingDesc :=
  ⟨fun _ _ _ h1 h2 => le_trans h2 h1⟩

/-- The similarity filter of `getSimilarBooks`: not the reference book itself,
and sharing its genre, or its author, or at least one tag
(`tags: {$in: referenceBook.tags}`). -/
def isSimilarTo (ref : Book) (id : Nat) (b : Book) : Bool :=
  !(b.id == id) &&
    (b.genre == ref.genre || b.author == ref.author ||
      b.tags.any (fun t => ref.tags.contains t))

/-- The successful query of `getSimilarBooks`: the records passing the
similarity filter, sorted by average rating descending, capped at `limit`. -/
def similarResult (db : List Book) (ref : Book) (id : Nat) (limit : Nat) : List Book :=
  ((db.filter (isSimilarTo ref id)).insertionSort byRatingDesc).take limit

/-- `aiController.getSimilarBooks`: look up the reference book by id (404 if
unknown), then return the similar books sorted by average rating descending,
capped at `parseInt(req.query.limit) || 5`. -/
def getSimilarBooks (db : List Book) (id : Nat) (limitQ : Option Nat) :
    Except NotFoundErr (List Book) :=
  match db.find? (fun b => b.id == id) with
  | none => .error .notFound
  | some ref => .ok (similarResult db ref id (limitQ.getD 5))

/-- `$sort: {count: -1}` on the per-genre aggregation rows. -/
def byCountDesc (a b : String × Nat) : Prop := b.2 ≤ a.2

instance : DecidableRel byCountDesc := fun a b =>
  inferInstanceAs (Decidable (_ ≤ _))

instance : IsTotal (String × Nat) byCountDesc := ⟨fun a b => le_total b.2 a.2⟩

instance : IsTrans (String × Nat) byCountDesc :=
  ⟨fun _ _ _ h1 h2 => le_trans h2 h1⟩

/-- `$sort: {_id: -1}` on the per-year aggregation rows (most recent year
first). -/
def byYearDesc (a b : Int × Nat) : Prop := b.1 ≤ a.1

instance : DecidableRel byYearDesc := fun a b =>
  inferInstanceAs (Decidable (_ ≤ _))

instance : IsTotal (Int × Nat) byYearDesc := ⟨fun a b => le_total b.1 a.1⟩

instance : IsTrans (Int × Nat) byYearDesc :=
  ⟨fun _ _ _ h1 h2 => le_trans h2 h1⟩

/-- The distinct genres present in the collection (the `$group` keys of the
genre aggregation in `getBookStats`). -/
def distinctGenres (db : List Book) : List String :=
  (db.map Book.genre).dedup

/-- The genre aggregation of `getBookStats`: group by genre with a count,
sorted by count descending. (The `$avg` of ratings per genre is elided: no
claim constrains it.) -/
def genreStats (db : List Book) : List (String × Nat) :=
  ((distinctGenres db).map
      (fun g => (g, db.countP (fun b => b.genre == g)))).insertionSort byCountDesc

/-- The distinct publication years present in the collection (the `$match` on
an existing, non-null `publicationYear` followed by `$group`). -/
def distinctYears (db : List Book) : List Int :=
  (db.filterMap Book.publicationYear).dedup

/-- The publication-year aggregation of `getBookStats`: group by year with a
count, sort by year descending (`$sort: {_id: -1}`), and keep the first 10
rows (`$limit: 10`). -/
def yearStats (db : List Book) : List (Int × Nat) :=
  (((distinctYears db).map
      (fun y => (y, db.countP (fun b => b.publicationYear == some y)))).insertionSort
    byYearDesc).take 10

/-- One mutating ledger operation against a single book: a borrow request or
a return request. -/
inductive LibOp
  | borrow (info : Borrower) (now : Int)
  | ret (email : String)
deriving DecidableEq, Repr

/-- Run one ledger operation through the model methods. -/
def applyOp (b : Book) : LibOp → Except String Book
  | .borrow info now => b.borrowBook info now
  | .ret email => b.returnBook email

/-- Run a sequence of ledger operations, requiring every one to succeed
(the first failure aborts with its error). -/
def applyOps : Book → List LibOp → Except String Book
  | b, [] => .ok b
  | b, op :: ops =>
    match applyOp b op with
    | .ok b1 => applyOps b1 ops
    | .error e => .error e

/-- Number of borrow operations in a sequence. -/
def countBorrows : List LibOp → Nat
  | [] => 0
  | .borrow _ _ :: ops => countBorrows ops + 1
  | .ret _ :: ops => countBorrows ops

/-- Number of return operations in a sequence. -/
def countReturns : List LibOp → Nat
  | [] => 0
  | .borrow _ _ :: ops => countReturns ops
  | .ret _ :: ops => countReturns ops + 1

lemma presave_status (b : Book) :
    (presave b).availability.status = b.availability.status := by
  unfold presave
  dsimp only
  split <;> split <;> rfl

lemma presave_borrowedBy (b : Book) :
    (presave b).availability.borrowedBy = b.availability.borrowedBy := by
  unfold presave
  dsimp only
  split <;> split <;> rfl

lemma presave_totalCopies (b : Book) :
    (presave b).availability.totalCopies = b.availability.totalCopies := by
  unfold presave
  dsimp only
  split <;> split <;> rfl

lemma presave_avail (b : Book) :
    (presave b).availability.availableCopies =
      min b.availability.availableCopies b.availability.totalCopies := by
  unfold presave
  dsimp only
  split <;> split <;> simp_all <;> omega

/-- Characterization of a successful `borrowBook` call: the guard held, one
ledger entry was appended, `availableCopies` went down by one (then was
clamped at `totalCopies` by the save hook), and the status flipped to
Borrowed exactly when the new count is zero. -/
lemma borrowBook_ok {b : Book} {info : Borrower} {now : Int} {b' : Book}
    (h : b.borrowBook info now = .ok b') :
    0 < b.availability.availableCopies ∧
    b'.availability.availableCopies =
      min (b.availability.availableCopies - 1) b.availability.totalCopies ∧
    b'.availability.totalCopies = b.availability.totalCopies ∧
    b'.availability.borrowedBy.length = b.availability.borrowedBy.length + 1 ∧
    b'.availability.status =
      (if b.availability.availableCopies - 1 = 0 then AvailStatus.borrowed
       else b.availability.status) := by
  unfold Book.borrowBook at h
  split at h
  · exact absurd h (by simp)
  · next hguard =>
    refine ⟨by omega, ?_⟩
    rw [Except.ok.injEq] at h
    subst h
    dsimp only
    constructor
    · rw [presave_avail]
      split <;> simp
    constructor
    · rw [presave_totalCopies]
      split <;> rfl
    constructor
    · rw [presave_borrowedBy]
      split <;> simp
    · rw [presave_status]
      split <;> simp_all

lemma findIndex_some_lt {p : α → Bool} :
    ∀ {l : List α} {i : Nat}, findIndex p l = some i → i < l.length := by
  intro l
  induction l with
  | nil => intro i h; simp [findIndex] at h
  | cons a l ih =>
    intro i h
    unfold findIndex at h
    split at h
    · simp at h
      simp [List.length_cons]
      omega
    · cases hrec : findIndex p l with
      | none => rw [hrec] at h; simp at h
      | some j =>
        rw [hrec] at h
        simp at h
        have := ih hrec
        simp [List.length_cons]
        omega

/-- Characterization of a successful `returnBook` call: some ledger entry
matched, it was removed, `availableCopies` went up by one (clamped at
`totalCopies` by the save hook), and the status flipped to Available exactly
when the new count is positive. -/
lemma returnBook_ok {b : Book} {email : String} {b' : Book}
    (h : b.returnBook email = .ok b') :
    ∃ i, findIndex (fun e => e.email == email) b.availability.borrowedBy = some i ∧
      b'.availability.availableCopies =
        min (b.availability.availableCopies + 1) b.availability.totalCopies ∧
      b'.availability.totalCopies = b.availability.totalCopies ∧
      b'.availability.borrowedBy.length + 1 = b.availability.borrowedBy.length ∧
      b'.availability.borrowedBy = b.availability.borrowedBy.eraseIdx i ∧
      b'.availability.status =
        (if 0 < b.availability.availableCopies + 1 then AvailStatus.available
         else b.availability.status) := by
  unfold Book.returnBook at h
  split at h
  · exact absurd h (by simp)
  · next i hfind =>
    refine ⟨i, hfind, ?_⟩
    have hlt : i < b.availability.borrowedBy.length := findIndex_some_lt hfind
    rw [Except.ok.injEq] at h
    subst h
    dsimp only
    constructor
    · rw [presave_avail]
      split <;> simp
    constructor
    · rw [presave_totalCopies]
      split <;> rfl
    constructor
    · rw [presave_borrowedBy]
      split <;> · simp [List.length_eraseIdx, hlt]; omega
    constructor
    · rw [presave_borrowedBy]
      split <;> rfl
    · rw [presave_status]
      split <;> simp_all

/-- A book whose availability data is consistent: a non-negative count of
available copies, and no more copies out (ledger entries) plus copies on the
shelf than copies in total. Every book produced by the creation endpoint
satisfies this (creation clamps `availableCopies` at `totalCopies` and starts
with an empty ledger), and (as proved below) every borrow/return preserves
it. -/
def ledgerConsistent (b : Book) : Prop :=
  0 ≤ b.availability.availableCopies ∧
    b.availability.availableCopies + b.availability.borrowedBy.length ≤
      b.availability.totalCopies

/-- Exact accounting over a sequence of successful borrows and returns from a
ledger-consistent book: `availableCopies` moves by exactly ±1 per operation
(the save-hook clamp never engages), consistency is preserved, and
`totalCopies` never changes. -/
lemma applyOps_accounting :
    ∀ (ops : List LibOp) (b b' : Book),
      ledgerConsistent b →
      applyOps b ops = .ok b' →
      b'.availability.availableCopies =
          b.availability.availableCopies - countBorrows ops + countReturns ops ∧
        ledgerConsistent b' ∧
        b'.availability.totalCopies = b.availability.totalCopies := by
  intro ops
  induction ops with
  | nil =>
    intro b b' hc h
    simp only [applyOps] at h
    rw [Except.ok.injEq] at h
    subst h
    simp [countBorrows, countReturns, hc]
  | cons op ops ih =>
    intro b b' hc h
    obtain ⟨hc0, hc1⟩ := hc
    simp only [applyOps] at h
    cases hstep : applyOp b op with
    | error e => rw [hstep] at h; exact absurd h (by simp)
    | ok b1 =>
      rw [hstep] at h
      cases op with
      | borrow info now =>
        obtain ⟨hpos, havail, htot, hlen, _⟩ := borrowBook_ok hstep
        have hc1' : ledgerConsistent b1 := by
          constructor
          · rw [havail]; omega
          · rw [havail, htot, hlen]; push_cast; omega
        obtain ⟨ih1, ih2, ih3⟩ := ih b1 b' hc1' h
        refine ⟨?_, ih2, by rw [ih3, htot]⟩
        rw [ih1, havail]
        simp only [countBorrows, countReturns]
        push_cast
        omega
      | ret email =>
        obtain ⟨i, _, havail, htot, hlen, _, _⟩ := returnBook_ok hstep
        have hc1' : ledgerConsistent b1 := by
          constructor
          · rw [havail]; omega
          · rw [havail, htot]; omega
        obtain ⟨ih1, ih2, ih3⟩ := ih b1 b' hc1' h
        refine ⟨?_, ih2, by rw [ih3, htot]⟩
        rw [ih1, havail]
        simp only [countBorrows, countReturns]
        push_cast
        omega

/-- A ledger entry for the borrower with email `a@x.com`. -/
def aliceEntry : BorrowEntry :=
  { name := "Alice", email := "a@x.com", borrowDate := 0, dueDate := 0 }

/-- A freshly created book: two copies, both available, empty ledger, no
reviews (the creation defaults of the schema, with `totalCopies = 2` as in the
spec's worked example). -/
def freshBook : Book :=
  { id := 1
    title := "Dune"
    author := "Frank Herbert"
    genre := "Sci-Fi"
    tags := ["classic"]
    publicationYear := some 1965
    availability :=
      { status := .available, totalCopies := 2, availableCopies := 2, borrowedBy := [] }
    reviews := []
    averageRating := 0
    totalReviews := 0
    createdAt := 0 }

/-- A book in an inconsistent state: every copy is on the shelf
(`availableCopies = totalCopies = 1`) yet the ledger still holds an active
entry for `a@x.com`. No schema rule of `bookModel.js` excludes this document
shape. -/
def staleLedgerBook : Book :=
  { freshBook with
    availability :=
      { status := .available, totalCopies := 1, availableCopies := 1,
        borrowedBy := [aliceEntry] } }

/-- Borrower `a@x.com`. -/
def alice : Borrower := { name := "Alice", email := "a@x.com", dueDate := none }

/-- Borrower `b@x.com`. -/
def bob : Borrower := { name := "Bob", email := "b@x.com", dueDate := none }

/-- C1, amended: over any sequence of successful borrows (N of them) and
successful returns (M of them) against a book whose availability data is
consistent (`0 ≤ availableCopies` and `availableCopies + |ledger| ≤
totalCopies`, which holds for every book the creation endpoint can produce),
the final `availableCopies` equals `initialCopies - N + M` clamped within
`[0, totalCopies]` — in fact the clamp never engages and the value is exactly
`initialCopies - N + M`. The consistency hypothesis is forced by the
counterexample below: on an inconsistent document the per-return clamp makes
the final count undershoot the claimed formula. -/
theorem borrow_return_copy_accounting (b : Book) (ops : List LibOp) (b' : Book)
    (hcons : ledgerConsistent b) (h : applyOps b ops = .ok b') :
    b'.availability.availableCopies =
      max 0 (min (b.availability.availableCopies - countBorrows ops + countReturns ops)
        b.availability.totalCopies) := by
  obtain ⟨h1, ⟨h2, h3⟩, h4⟩ := applyOps_accounting ops b b' hcons h
  omega

/-- Witness for C1: a fresh two-copy book, one successful borrow followed by
one successful return; the hypotheses hold and the final count is
`2 - 1 + 1 = 2`. -/
theorem borrow_return_copy_accounting_witness :
    ledgerConsistent freshBook ∧
    applyOps freshBook [LibOp.borrow alice 0, LibOp.ret "a@x.com"] = .ok freshBook ∧
    freshBook.availability.availableCopies =
      max 0 (min (freshBook.availability.availableCopies
          - countBorrows [LibOp.borrow alice 0, LibOp.ret "a@x.com"]
          + countReturns [LibOp.borrow alice 0, LibOp.ret "a@x.com"])
        freshBook.availability.totalCopies) :=
  ⟨⟨by decide, by decide⟩, by decide,
    borrow_return_copy_accounting freshBook _ freshBook ⟨by decide, by decide⟩ (by decide)⟩

/-- Counterexample to C1 as stated (over *every* book): starting from
`staleLedgerBook` (1 of 1 copies available, stale ledger entry for
`a@x.com`), the successful sequence "return `a@x.com`, then borrow
`b@x.com`" has N = 1, M = 1, so the claimed value is
`clamp(1 - 1 + 1) = 1`, but the code ends with `availableCopies = 0`:
the return is clamped at `totalCopies = 1` by the save hook, and the borrow
then decrements from 1 to 0. -/
theorem borrow_return_copy_accounting_cex :
    (applyOps staleLedgerBook [LibOp.ret "a@x.com", LibOp.borrow bob 0]).map
        (fun b => b.availability.availableCopies) = .ok 0 ∧
    max 0 (min (staleLedgerBook.availability.availableCopies
        - countBorrows [LibOp.ret "a@x.com", LibOp.borrow bob 0]
        + countReturns [LibOp.ret "a@x.com", LibOp.borrow bob 0])
      staleLedgerBook.availability.totalCopies) = 1 := by
  decide

/-- A book with no copies available: one copy in total, out on loan to
`a@x.com`. -/
def zeroAvailBook : Book :=
  { freshBook with
    availability :=
      { status := .borrowed, totalCopies := 1, availableCopies := 0,
        borrowedBy := [aliceEntry] } }

/-- C2: on an existing book the borrow controller fails with the
no-copies-available conflict whenever `availableCopies <= 0`, and (when
copies remain) with the duplicate-borrower conflict whenever the ledger
already holds an active entry for the email; in both cases the stored book is
returned unchanged — the controller answers before any mutation is saved.
(When both conditions hold the controller's first guard wins and the
no-copies conflict is reported.) -/
theorem borrow_conflict_fails_without_mutation (b : Book) (info : Borrower) (now : Int) :
    (b.availability.availableCopies ≤ 0 →
      borrowBookCtrl b info now = (b, some .noCopiesAvailable)) ∧
    (0 < b.availability.availableCopies →
      b.availability.borrowedBy.any (fun e => e.email == info.email) = true →
      borrowBookCtrl b info now = (b, some .alreadyBorrowed)) := by
  constructor
  · intro h
    unfold borrowBookCtrl
    rw [if_pos h]
  · intro h hdup
    unfold borrowBookCtrl
    rw [if_neg (by omega), if_pos hdup]

/-- Witness for C2: borrowing `zeroAvailBook` (no copies) fails with the
no-copies conflict, and borrowing `staleLedgerBook` again as `a@x.com`
(already in its ledger) fails with the duplicate-borrower conflict; neither
touches the stored book. -/
theorem borrow_conflict_fails_without_mutation_witness :
    borrowBookCtrl zeroAvailBook bob 0 = (zeroAvailBook, some .noCopiesAvailable) ∧
    borrowBookCtrl staleLedgerBook alice 0 = (staleLedgerBook, some .alreadyBorrowed) :=
  ⟨(borrow_conflict_fails_without_mutation zeroAvailBook bob 0).1 (by decide),
   (borrow_conflict_fails_without_mutation staleLedgerBook alice 0).2
     (by decide) (by decide)⟩

lemma findIndex_spec {p : α → Bool} :
    ∀ {l : List α} {i : Nat}, findIndex p l = some i →
      (l.take i).all (fun a => !p a) = true ∧ l[i]?.any p = true := by
  intro l
  induction l with
  | nil => intro i h; simp [findIndex] at h
  | cons a l ih =>
    intro i h
    unfold findIndex at h
    split at h
    · next hpa =>
      simp only [Option.some.injEq] at h
      subst h
      simpa using hpa
    · next hpa =>
      cases hrec : findIndex p l with
      | none => rw [hrec] at h; simp at h
      | some j =>
        rw [hrec] at h
        simp only [Option.map_some', Option.some.injEq] at h
        subst h
        obtain ⟨ih1, ih2⟩ := ih hrec
        refine ⟨?_, by simpa using ih2⟩
        simp only [List.take_succ_cons, List.all_cons, ih1, Bool.and_true]
        simp [hpa]

/-- C3: on an existing book the return controller fails with the
no-borrow-record error and leaves the stored book unchanged when no ledger
entry matches the email; otherwise it succeeds, removes exactly the first
matching ledger entry, increments `availableCopies` clamped at `totalCopies`,
and flips the status to Available (the new count being positive). -/
theorem return_notfound_fails_without_mutation (b : Book) (email : String) :
    (findIndex (fun e => e.email == email) b.availability.borrowedBy = none →
      returnBookCtrl b email = (b, some .noBorrowRecord)) ∧
    (∀ i, findIndex (fun e => e.email == email) b.availability.borrowedBy = some i →
      (b.availability.borrowedBy.take i).all (fun e => !(e.email == email)) = true ∧
      b.availability.borrowedBy[i]?.any (fun e => e.email == email) = true ∧
      (returnBookCtrl b email).2 = none ∧
      (returnBookCtrl b email).1.availability.borrowedBy =
        b.availability.borrowedBy.eraseIdx i ∧
      (returnBookCtrl b email).1.availability.availableCopies =
        min (b.availability.availableCopies + 1) b.availability.totalCopies ∧
      (0 < b.availability.availableCopies + 1 →
        (returnBookCtrl b email).1.availability.status = .available)) := by
  constructor
  · intro h
    unfold returnBookCtrl Book.returnBook
    rw [h]
  · intro i h
    obtain ⟨hfirst, hmatch⟩ := findIndex_spec h
    cases hc : b.returnBook email with
    | error e =>
      unfold Book.returnBook at hc
      rw [h] at hc
      simp at hc
    | ok b2 =>
      obtain ⟨i', hfind, havail, htot, hlen, hledger, hstat⟩ := returnBook_ok hc
      rw [h] at hfind
      injection hfind with hii
      subst hii
      unfold returnBookCtrl
      rw [hc]
      refine ⟨hfirst, hmatch, rfl, hledger, havail, ?_⟩
      intro hpos
      rw [hstat, if_pos hpos]

/-- Witness for C3: returning `a@x.com` on `freshBook` (empty ledger) fails
with the no-borrow-record error and leaves the book unchanged; returning
`a@x.com` on `staleLedgerBook` succeeds and clamps the incremented count at
`totalCopies`. -/
theorem return_notfound_fails_without_mutation_witness :
    returnBookCtrl freshBook "a@x.com" = (freshBook, some .noBorrowRecord) ∧
    (returnBookCtrl staleLedgerBook "a@x.com").2 = none ∧
    (returnBookCtrl staleLedgerBook "a@x.com").1.availability.availableCopies =
      min (staleLedgerBook.availability.availableCopies + 1)
        staleLedgerBook.availability.totalCopies := by
  refine ⟨(return_notfound_fails_without_mutation freshBook "a@x.com").1 (by decide),
    ?_, ?_⟩
  · exact (((return_notfound_fails_without_mutation staleLedgerBook "a@x.com").2 0
      (by decide)).2).2.1
  · exact ((((return_notfound_fails_without_mutation staleLedgerBook "a@x.com").2 0
      (by decide)).2).2).2.2.1

/-- The spec's status invariant: `status == Borrowed` iff no copy is
available and the book has copies at all. -/
def statusInvariant (b : Book) : Prop :=
  b.availability.status = .borrowed ↔
    (b.availability.availableCopies = 0 ∧ 0 < b.availability.totalCopies)

/-- A book manually placed in the Reserved state, with one available copy. -/
def reservedBook : Book :=
  { freshBook with
    availability :=
      { status := .reserved, totalCopies := 1, availableCopies := 1, borrowedBy := [] } }

/-- The state of `freshBook` after a successful borrow by `a@x.com` at time 0:
one copy left, one ledger entry with the defaulted 14-day due date. -/
def borrowedFreshBook : Book :=
  { freshBook with
    availability :=
      { status := .available, totalCopies := 2, availableCopies := 1,
        borrowedBy :=
          [{ name := "Alice", email := "a@x.com", borrowDate := 0,
             dueDate := 1209600000 }] } }

/-- C5, amended: any successful borrow or return on a book satisfying the
status invariant and `0 ≤ availableCopies ≤ totalCopies` preserves the
invariant, and a successful return always leaves the status Available.
However — unlike the claim — borrow sets the status to Borrowed whenever
`availableCopies` reaches 0 and return sets it to Available whenever the
count becomes positive, regardless of a manually-set Reserved or Maintenance
status: those states ARE auto-overridden by the toggle (see the
counterexample). -/
theorem status_borrow_toggle (b : Book) (op : LibOp) (b' : Book)
    (hinv : statusInvariant b)
    (h0 : 0 ≤ b.availability.availableCopies)
    (h1 : b.availability.availableCopies ≤ b.availability.totalCopies)
    (h : applyOp b op = .ok b') :
    statusInvariant b' ∧
    (∀ email, op = .ret email → b'.availability.status = .available) := by
  cases op with
  | borrow info now =>
    obtain ⟨hpos, havail, htot, hlen, hstat⟩ := borrowBook_ok h
    refine ⟨?_, fun email he => LibOp.noConfusion he⟩
    unfold statusInvariant at *
    rw [hstat, havail, htot]
    by_cases hz : b.availability.availableCopies - 1 = 0
    · rw [if_pos hz]
      simp only [true_iff]
      omega
    · rw [if_neg hz]
      constructor
      · intro hb
        exact absurd (hinv.mp hb).1 (by omega)
      · rintro ⟨hmin, ht⟩
        exfalso
        omega
  | ret email =>
    obtain ⟨i, hfind, havail, htot, hlen, hledger, hstat⟩ := returnBook_ok h
    have hstat' : b'.availability.status = .available := by
      rw [hstat, if_pos (by omega)]
    refine ⟨?_, fun e _ => hstat'⟩
    unfold statusInvariant
    rw [hstat', havail, htot]
    constructor
    · intro hcontr
      exact absurd hcontr (by simp)
    · rintro ⟨hmin, ht⟩
      exfalso
      omega

/-- Witness for C5: borrowing the fresh two-copy book keeps the invariant
(one copy remains, status stays Available). -/
theorem status_borrow_toggle_witness :
    statusInvariant freshBook ∧
    applyOp freshBook (LibOp.borrow alice 0) = .ok borrowedFreshBook ∧
    statusInvariant borrowedFreshBook := by
  have hinv : statusInvariant freshBook := by
    unfold statusInvariant
    decide
  refine ⟨hinv, by decide, ?_⟩
  exact (status_borrow_toggle freshBook (LibOp.borrow alice 0) borrowedFreshBook hinv
    (by decide) (by decide) (by decide)).1

/-- Counterexample to C5 as stated: `reservedBook` is manually Reserved with
one available copy, yet a successful borrow (taking the count to 0)
auto-overrides the Reserved status to Borrowed — the code's toggle ignores
manually-set states. -/
theorem status_borrow_toggle_cex :
    reservedBook.availability.status = .reserved ∧
    (reservedBook.borrowBook bob 0).map (fun b => b.availability.status) =
      .ok .borrowed := by
  decide

/-- The pre-save hook's integer computation agrees with exact rational
rounding: for a positive review count, `jsRound10 total count` is
`round((total/count) * 10)` (JS `Math.round` rounds half up, as does
Mathlib's `round`; all values here are non-negative). -/
lemma jsRound10_eq_round (total count : Nat) (hc : 0 < count) :
    jsRound10 total count = round (((total : ℚ) / (count : ℚ)) * 10) := by
  have hfloor : ⌊(((20 * total + count : ℕ) : ℤ) : ℚ) / ((2 * count : ℕ) : ℚ)⌋
      = ((20 * total + count : ℕ) : ℤ) / ((2 * count : ℕ) : ℤ) :=
    Rat.floor_intCast_div_natCast _ _
  have harg : (((20 * total + count : ℕ) : ℤ) : ℚ) / ((2 * count : ℕ) : ℚ)
      = ((total : ℚ) / (count : ℚ)) * 10 + 1 / 2 := by
    have h2cQ : ((2 * count : ℕ) : ℚ) ≠ 0 := by
      rw [Nat.cast_ne_zero]
      omega
    have hcQ : (count : ℚ) ≠ 0 := Nat.cast_ne_zero.mpr (by omega)
    field_simp
    ring
  rw [round_eq, ← harg, hfloor, jsRound10,
    Int.fdiv_eq_ediv _ (by positivity)]
  norm_num

/-- The spec's review-aggregation invariant (invariants 2 and 3 of §3):
`totalReviews` counts the reviews, and the stored `averageRating` — an
integer number of tenths, whose JS value is `averageRating / 10` — is the
mean rating rounded to one decimal, `0` with no reviews. -/
def ratingInvariant (b : Book) : Prop :=
  b.totalReviews = b.reviews.length ∧
  (b.averageRating : ℚ) / 10 =
    (if b.reviews.length = 0 then 0
     else (round ((((b.reviews.map Review.rating).sum : ℚ) /
         (b.reviews.length : ℚ)) * 10) : ℚ) / 10)

lemma presave_reviews (b : Book) : (presave b).reviews = b.reviews := by
  by_cases h : 0 < b.reviews.length
  · simp only [presave, if_pos h]
    split <;> rfl
  · simp only [presave, if_neg h]
    split <;> rfl

lemma presave_totalReviews (b : Book) :
    (presave b).totalReviews = b.reviews.length := by
  by_cases h : 0 < b.reviews.length
  · simp only [presave, if_pos h]
    split <;> rfl
  · simp only [presave, if_neg h]
    split <;> simp <;> omega

lemma presave_averageRating (b : Book) :
    (presave b).averageRating =
      (if 0 < b.reviews.length then
        jsRound10 ((b.reviews.map Review.rating).sum) b.reviews.length
       else 0) := by
  by_cases h : 0 < b.reviews.length
  · simp only [presave, if_pos h]
    split <;> rfl
  · simp only [presave, if_neg h]
    split <;> rfl

/-- Every saved book satisfies the review-aggregation invariant: the
pre-save hook recomputes both fields from the review list. -/
lemma presave_ratingInvariant (b : Book) : ratingInvariant (presave b) := by
  unfold ratingInvariant
  rw [presave_reviews, presave_totalReviews, presave_averageRating]
  refine ⟨rfl, ?_⟩
  by_cases h : 0 < b.reviews.length
  · rw [if_pos h, if_neg (by omega), jsRound10_eq_round _ _ h]
  · rw [if_neg h, if_pos (by omega)]
    simp

lemma foldl_addReview_ratingInvariant (b : Book) (rs : List Review) (h : rs ≠ []) :
    ratingInvariant (List.foldl Book.addReview b rs) := by
  induction rs generalizing b with
  | nil => exact absurd rfl h
  | cons r rs ih =>
    cases rs with
    | nil => exact presave_ratingInvariant _
    | cons r2 rs2 =>
      simp only [List.foldl_cons]
      exact ih _ (by simp)

/-- A five-star review. -/
def review5 : Review := { rating := 5, comment := "great", reviewerName := "R1" }

/-- A three-star review. -/
def review3 : Review := { rating := 3, comment := "fine", reviewerName := "R2" }

/-- C4: after any sequence of review additions the book satisfies the
review-aggregation invariant — `averageRating` is the mean rating rounded to
one decimal (`0` with no reviews) and `totalReviews` is the review count;
the empty sequence preserves the invariant; and the worked example holds:
adding ratings 5 and 3 to a fresh book yields averageRating 4.0 (stored as
40 tenths) and totalReviews 2. -/
theorem review_average_and_count (b : Book) (rs : List Review) :
    (ratingInvariant b → ratingInvariant (List.foldl Book.addReview b rs)) ∧
    (rs ≠ [] → ratingInvariant (List.foldl Book.addReview b rs)) ∧
    ((List.foldl Book.addReview freshBook [review5, review3]).averageRating = 40 ∧
      ((List.foldl Book.addReview freshBook [review5, review3]).averageRating : ℚ) / 10
        = 4 ∧
      (List.foldl Book.addReview freshBook [review5, review3]).totalReviews = 2) := by
  refine ⟨?_, fun h => foldl_addReview_ratingInvariant b rs h, by decide, ?_, by decide⟩
  · intro hb
    cases rs with
    | nil => exact hb
    | cons r rs2 => exact foldl_addReview_ratingInvariant b (r :: rs2) (by simp)
  · have h40 : (List.foldl Book.addReview freshBook [review5, review3]).averageRating
        = 40 := by decide
    rw [h40]
    norm_num

/-- Witness for C4: the invariant after zero additions (given it held) and
after one addition to the fresh book. -/
theorem review_average_and_count_witness :
    ratingInvariant (List.foldl Book.addReview freshBook []) ∧
    ratingInvariant (List.foldl Book.addReview freshBook [review5]) := by
  constructor
  · exact (review_average_and_count freshBook []).1
      (by unfold ratingInvariant; refine ⟨rfl, ?_⟩; simp [freshBook])
  · exact (review_average_and_count freshBook [review5]).2.1 (by simp)

/-- The controller's natural-number `Math.ceil(totalBooks/limit)` agrees with
the exact rational ceiling whenever `limit > 0` (as guaranteed by the query
validation, which requires `limit ≥ 1`). -/
lemma jsCeilDiv_eq_ceil (t l : Nat) (hl : 0 < l) :
    jsCeilDiv t l = ⌈(t : ℚ) / (l : ℚ)⌉₊ := by
  rcases Nat.eq_zero_or_pos t with ht | ht
  · subst ht
    rw [jsCeilDiv, Nat.div_eq_of_lt (by omega)]
    simp
  · have hlq : (0:ℚ) < l := by positivity
    have hmul_le : jsCeilDiv t l * l ≤ t + l - 1 := Nat.div_mul_le_self _ _
    have hle_mul : t ≤ jsCeilDiv t l * l := by
      have h1 := Nat.div_add_mod (t + l - 1) l
      have h2 := Nat.mod_lt (t + l - 1) hl
      rw [Nat.mul_comm] at h1
      rw [jsCeilDiv]
      omega
    have hn0 : jsCeilDiv t l ≠ 0 := by
      intro h0
      rw [h0] at hle_mul
      simp at hle_mul
      omega
    symm
    rw [Nat.ceil_eq_iff hn0]
    constructor
    · rw [lt_div_iff₀ hlq]
      have hsub : (jsCeilDiv t l - 1) * l < t := by
        have h2 : (jsCeilDiv t l - 1) * l = jsCeilDiv t l * l - l := by
          rw [Nat.sub_mul, one_mul]
        omega
      exact_mod_cast hsub
    · rw [div_le_iff₀ hlq]
      exact_mod_cast hle_mul

/-- C6: the pagination metadata of a list query satisfies
`totalPages = ceil(totalBooks/limit)` (exact rational ceiling),
`hasNextPage ↔ page < totalPages`, `hasPrevPage ↔ page > 1`; and in the
spec's worked example (`limit = 10`, `totalBooks = 25`) there are 3 pages and
page 3 of any 25-record result holds the remaining 5 records. -/
theorem pagination_metadata (page limit totalBooks : Nat) (hl : 0 < limit) :
    ((mkPagination page limit totalBooks).totalPages
        = ⌈(totalBooks : ℚ) / (limit : ℚ)⌉₊ ∧
      ((mkPagination page limit totalBooks).hasNextPage = true ↔
        page < ⌈(totalBooks : ℚ) / (limit : ℚ)⌉₊) ∧
      ((mkPagination page limit totalBooks).hasPrevPage = true ↔ 1 < page)) ∧
    ((mkPagination 3 10 25).totalPages = 3 ∧
      ∀ db : List Book, db.length = 25 → (pageSlice 3 10 db).length = 5) := by
  refine ⟨⟨jsCeilDiv_eq_ceil totalBooks limit hl, ?_, by simp [mkPagination]⟩,
    by decide, ?_⟩
  · simp [mkPagination, jsCeilDiv_eq_ceil totalBooks limit hl]
  · intro db hdb
    simp [pageSlice, List.length_take, List.length_drop, hdb]

/-- Witness for C6: the worked example itself, `limit = 10 > 0`,
`totalBooks = 25`, `page = 3`, on a concrete 25-record collection. -/
theorem pagination_metadata_witness :
    (0:Nat) < 10 ∧
    (mkPagination 3 10 25).totalPages = ⌈((25:Nat) : ℚ) / ((10:Nat) : ℚ)⌉₊ ∧
    (pageSlice 3 10 (List.replicate 25 freshBook)).length = 5 :=
  ⟨by decide,
    ((pagination_metadata 3 10 25 (by decide)).1).1,
    ((pagination_metadata 3 10 25 (by decide)).2).2 (List.replicate 25 freshBook)
      (by simp)⟩

/-- C7, evaluated at the failing input (a `GET /api/books` request with no
query parameters): the validation middleware's schema defaults inject
`sortBy = 'title'`, `sortOrder = 'asc'` before the controller runs, so the
effective sort descriptor is `title` ascending — not the `createdAt`
descending promised by the controller's dead fallback branch, its response
metadata, and the spec. The pagination defaults `page = 1`, `limit = 10` do
hold. -/
theorem default_sort_not_created_at :
    getAllBooksSort (applySearchDefaults emptyQuery) = ("title", 1) ∧
    getAllBooksSort (applySearchDefaults emptyQuery) ≠ ("createdAt", -1) ∧
    getAllBooksSort emptyQuery = ("createdAt", -1) ∧
    getAllBooksPage (applySearchDefaults emptyQuery) = 1 ∧
    getAllBooksLimit (applySearchDefaults emptyQuery) = 10 := by
  decide

/-- Another Sci-Fi book by a different author, present alongside `freshBook`. -/
def otherSciFiBook : Book :=
  { freshBook with
    id := 2
    title := "Hyperion"
    author := "Dan Simmons"
    tags := ["space"]
    averageRating := 45
    totalReviews := 3 }

/-- A two-book collection containing the reference `freshBook` (id 1) and a
similar book. -/
def simDb : List Book := [freshBook, otherSciFiBook]

/-- C9: a similar-books request fails with not-found when the reference id is
unknown; otherwise every returned record is a record other than the
reference (its id differs) sharing the reference's genre, author, or at
least one tag, the result is sorted by average rating descending, and its
length is capped at the limit (default 5). -/
theorem similar_books_excludes_reference (db : List Book) (id : Nat)
    (limitQ : Option Nat) :
    (db.find? (fun b => b.id == id) = none →
      getSimilarBooks db id limitQ = .error .notFound) ∧
    (∀ ref, db.find? (fun b => b.id == id) = some ref →
      getSimilarBooks db id limitQ = .ok (similarResult db ref id (limitQ.getD 5)) ∧
      (similarResult db ref id (limitQ.getD 5)).length ≤ limitQ.getD 5 ∧
      List.Pairwise byRatingDesc (similarResult db ref id (limitQ.getD 5)) ∧
      ∀ x ∈ similarResult db ref id (limitQ.getD 5),
        x.id ≠ id ∧
          (x.genre = ref.genre ∨ x.author = ref.author ∨
            ∃ t ∈ x.tags, t ∈ ref.tags)) := by
  constructor
  · intro h
    unfold getSimilarBooks
    rw [h]
  · intro ref h
    refine ⟨by unfold getSimilarBooks; rw [h], List.length_take_le _ _, ?_, ?_⟩
    · exact List.Pairwise.sublist (List.take_sublist _ _)
        (List.sorted_insertionSort byRatingDesc _)
    · intro x hx
      have hx2 : x ∈ (db.filter (isSimilarTo ref id)) :=
        (List.mem_insertionSort byRatingDesc).mp (List.mem_of_mem_take hx)
      have hsim : isSimilarTo ref id x = true := (List.mem_filter.mp hx2).2
      simp only [isSimilarTo, Bool.and_eq_true, Bool.or_eq_true, Bool.not_eq_true',
        beq_eq_false_iff_ne, beq_iff_eq, List.any_eq_true] at hsim
      obtain ⟨hid, hrest⟩ := hsim
      refine ⟨hid, ?_⟩
      rcases hrest with (h | h) | h
      · exact Or.inl h
      · exact Or.inr (Or.inl h)
      · obtain ⟨t, ht, hc⟩ := h
        exact Or.inr (Or.inr ⟨t, ht, by simpa using hc⟩)

/-- Witness for C9: the empty collection has no reference book (not-found);
in `simDb` the reference `freshBook` is found and the result is capped at the
default limit 5. -/
theorem similar_books_excludes_reference_witness :
    getSimilarBooks ([] : List Book) 1 none = .error .notFound ∧
    getSimilarBooks simDb 1 none = .ok (similarResult simDb freshBook 1 5) ∧
    (similarResult simDb freshBook 1 5).length ≤ 5 :=
  ⟨(similar_books_excludes_reference [] 1 none).1 (by decide),
    ((similar_books_excludes_reference simDb 1 none).2 freshBook (by decide)).1,
    ((similar_books_excludes_reference simDb 1 none).2 freshBook (by decide)).2.1⟩

/-- `jsCeilDiv t l` pages of `l` records cover all `t` records. -/
lemma le_jsCeilDiv_mul (t l : Nat) (hl : 0 < l) : t ≤ jsCeilDiv t l * l := by
  have h1 := Nat.div_add_mod (t + l - 1) l
  have h2 := Nat.mod_lt (t + l - 1) hl
  rw [Nat.mul_comm] at h1
  rw [jsCeilDiv]
  omega

/-- C10: a genre listing fails with not-found exactly when the requested page
slice is empty — in particular whenever the genre does have matching books
but the requested page lies past the last page (`page > ceil(total/limit)`),
instead of answering with an empty list and pagination metadata. -/
theorem genre_listing_empty_page_not_found (db : List Book) (genre : String)
    (pageQ limitQ : Option Nat) :
    (getBooksByGenre db genre pageQ limitQ = .error .notFound ↔
      pageSlice (pageQ.getD 1) (limitQ.getD 10)
        ((db.filter (fun b => b.genre == genre)).insertionSort byRatingCreatedDesc)
        = []) ∧
    (0 < limitQ.getD 10 →
      db.filter (fun b => b.genre == genre) ≠ [] →
      jsCeilDiv (db.filter (fun b => b.genre == genre)).length (limitQ.getD 10)
          < pageQ.getD 1 →
      getBooksByGenre db genre pageQ limitQ = .error .notFound) := by
  have hiff : getBooksByGenre db genre pageQ limitQ = .error .notFound ↔
      pageSlice (pageQ.getD 1) (limitQ.getD 10)
        ((db.filter (fun b => b.genre == genre)).insertionSort byRatingCreatedDesc)
        = [] := by
    unfold getBooksByGenre
    dsimp only
    split
    · next hemp => exact iff_of_true rfl (by simpa [List.isEmpty_iff] using hemp)
    · next hemp => exact iff_of_false (by simp) (by simpa [List.isEmpty_iff] using hemp)
  refine ⟨hiff, fun hl hne hpage => hiff.mpr ?_⟩
  unfold pageSlice
  have hdrop :
      ((db.filter (fun b => b.genre == genre)).insertionSort
        byRatingCreatedDesc).drop ((pageQ.getD 1 - 1) * limitQ.getD 10) = [] := by
    apply List.drop_eq_nil_of_le
    rw [List.length_insertionSort]
    calc (db.filter (fun b => b.genre == genre)).length
        ≤ jsCeilDiv (db.filter (fun b => b.genre == genre)).length (limitQ.getD 10)
            * limitQ.getD 10 :=
          le_jsCeilDiv_mul _ _ hl
      _ ≤ (pageQ.getD 1 - 1) * limitQ.getD 10 :=
          Nat.mul_le_mul_right _ (by omega)
  rw [hdrop, List.take_nil]

/-- Witness for C10: one Sci-Fi book, default limit 10, requested page 2 —
the page is past the last page, so the listing fails with not-found. -/
theorem genre_listing_empty_page_not_found_witness :
    getBooksByGenre [freshBook] "Sci-Fi" (some 2) none = .error .notFound :=
  (genre_listing_empty_page_not_found [freshBook] "Sci-Fi" (some 2) none).2
    (by decide) (by decide) (by decide)

/-- C8, amended: the per-genre breakdown of the statistics operation is
sorted by count descending, and the per-publication-year breakdown is the 10
most recent distinct publication years (sorted most recent first) — the 10
most recent years by *year*, not the top 10 years by *count*: any distinct
year omitted from the breakdown is no more recent than every listed year,
regardless of counts (see the counterexample for the count-based reading). -/
theorem stats_breakdown_ordering (db : List Book) :
    List.Sorted byCountDesc (genreStats db) ∧
    List.Sorted byYearDesc (yearStats db) ∧
    (yearStats db).length = min 10 (distinctYears db).length ∧
    ∀ p ∈ yearStats db, ∀ y ∈ distinctYears db,
      y ∉ (yearStats db).map Prod.fst → y ≤ p.1 := by
  refine ⟨List.sorted_insertionSort byCountDesc _, ?_, ?_, ?_⟩
  · exact List.Pairwise.sublist (List.take_sublist _ _)
      (List.sorted_insertionSort byYearDesc _)
  · unfold yearStats
    rw [List.length_take, List.length_insertionSort, List.length_map]
  · intro p hp y hy hnot
    set L := ((distinctYears db).map
        (fun y => (y, db.countP (fun b => b.publicationYear == some y)))).insertionSort
          byYearDesc with hL
    have hys : yearStats db = L.take 10 := by rw [hL]; rfl
    rw [hys] at hp hnot
    have hrowL : (y, db.countP (fun b => b.publicationYear == some y)) ∈ L := by
      rw [hL]
      exact (List.mem_insertionSort byYearDesc).mpr (List.mem_map_of_mem _ hy)
    rw [← List.take_append_drop 10 L] at hrowL
    rcases List.mem_append.mp hrowL with hin | hin
    · exact absurd (by simpa using List.mem_map_of_mem Prod.fst hin) hnot
    · have hsorted : List.Sorted byYearDesc L := by
        rw [hL]
        exact List.sorted_insertionSort byYearDesc _
      exact hsorted.rel_of_mem_take_of_mem_drop hp hin

/-- A copy of `freshBook` with a given id and publication year (used to build
aggregation test collections). -/
def yearBook (i : Nat) (y : Int) : Book :=
  { freshBook with id := i, publicationYear := some y }

/-- Sixteen books over eleven distinct publication years: six books from the
year 2000 and one from each of 2001..2010. -/
def yearDb : List Book :=
  [yearBook 1 2000, yearBook 2 2000, yearBook 3 2000, yearBook 4 2000,
   yearBook 5 2000, yearBook 6 2000, yearBook 7 2001, yearBook 8 2002,
   yearBook 9 2003, yearBook 10 2004, yearBook 11 2005, yearBook 12 2006,
   yearBook 13 2007, yearBook 14 2008, yearBook 15 2009, yearBook 16 2010]

/-- Witness for C8: in `yearDb` the breakdown row `(2010, 1)` is listed, the
year 2000 is a distinct year omitted from the breakdown, and indeed
`2000 ≤ 2010` — every omitted year is at most every listed year. -/
theorem stats_breakdown_ordering_witness :
    ((2010:Int), (1:Nat)) ∈ yearStats yearDb ∧
    (2000:Int) ∈ distinctYears yearDb ∧
    (2000:Int) ∉ (yearStats yearDb).map Prod.fst ∧
    (2000:Int) ≤ ((2010:Int), (1:Nat)).1 :=
  ⟨by decide, by decide, by decide,
    (stats_breakdown_ordering yearDb).2.2.2 ((2010:Int), (1:Nat)) (by decide)
      2000 (by decide) (by decide)⟩

/-- Counterexample to C8 as stated: in `yearDb` the year 2000 has count 6
while every year in the computed breakdown has count 1 (strictly less), yet
2000 is absent from the breakdown — the pipeline sorts by year and limits to
10, so it keeps the 10 most recent years, not the top 10 years by count. -/
theorem stats_breakdown_ordering_cex :
    ((yearStats yearDb).map Prod.fst).contains 2000 = false ∧
    ((yearStats yearDb).map Prod.snd).all (fun c => decide (c < 6)) = true ∧
    yearDb.countP (fun b => b.publicationYear == some 2000) = 6 ∧
    (distinctYears yearDb).length = 11 := by
  decide

end BookLibrary
